import Mathlib

/-!
Verification development for the resumable paginated conversion pipeline of
the `noted.md` repository (`src/pdf_utils.rs` and the pipeline components
described in the specification).

Modelling conventions:
* Rust `u32` values are modelled as `Nat` (page counts and page indices stay
  far below `2^32` in every statement here, so wrap-around never occurs).
* `HashMap<String, ProcessingProgress>` is modelled as a total function
  `String → Option ProcessingProgress` with pointwise `insert` / `remove`,
  the exact observable semantics of the Rust map.
* The filesystem and the serde_json codec are external collaborators; they
  are modelled as explicit parameters (a `FileState` value and a `JsonCodec`
  record carrying serde's round-trip contract).
-/

deriving instance DecidableEq for Except

/-- Mirror of `ProcessingProgress` (src/pdf_utils.rs lines 13-17):
`{ last_processed_page: u32, total_pages: u32 }`. -/
structure ProcessingProgress where
  last_processed_page : Nat
  total_pages : Nat
deriving DecidableEq, Repr

/-- Mirror of `ProgressTracker` (src/pdf_utils.rs lines 19-22): a map from
document path to its progress record, modelled as a function into `Option`. -/
structure ProgressTracker where
  files : String → Option ProcessingProgress

namespace ProgressTracker

/-- `ProgressTracker::new` (src/pdf_utils.rs lines 25-29): the empty map. -/
def new : ProgressTracker := ⟨fun _ => none⟩

/-- `ProgressTracker::get_progress` (src/pdf_utils.rs lines 56-58):
`self.files.get(file_path)`. -/
def get_progress (t : ProgressTracker) (file_path : String) :
    Option ProcessingProgress :=
  t.files file_path

/-- `ProgressTracker::update_progress` (src/pdf_utils.rs lines 60-62):
`self.files.insert(file_path, progress)` — unconditional replacement. -/
def update_progress (t : ProgressTracker) (file_path : String)
    (progress : ProcessingProgress) : ProgressTracker :=
  ⟨fun k => if k = file_path then some progress else t.files k⟩

/-- `ProgressTracker::mark_completed` (src/pdf_utils.rs lines 64-66):
`self.files.remove(file_path)`. -/
def mark_completed (t : ProgressTracker) (file_path : String) :
    ProgressTracker :=
  ⟨fun k => if k = file_path then none else t.files k⟩

/-- The checkpoint watermark for a document: `last_processed_page` of its
record, defaulting to `0` when no record exists (spec §4.3 step 1). -/
def watermark (t : ProgressTracker) (file_path : String) : Nat :=
  ((t.get_progress file_path).map (·.last_processed_page)).getD 0

end ProgressTracker

/-- What `ProgressTracker::load` observes about the backing progress file
(src/pdf_utils.rs lines 31-39):
* `pathError` — `get_progress_file_path()` failed (no config dir, or
  `create_dir_all` failed), so the `?` on line 32 propagates an error;
* `absent` — `progress_file.exists()` is `false`;
* `unreadable` — the file exists but `fs::read_to_string` fails, so the
  `?` on line 34 propagates an `IoError`;
* `present a` — the file exists and reads as content `a`. -/
inductive FileState (α : Type) where
  | pathError
  | absent
  | unreadable
  | present (a : α)
deriving DecidableEq, Repr

/-- Simplified mirror of `NotedError` (src/error.rs), keeping the variants
reachable from the checkpoint-store and PDF code paths. -/
inductive NotedError where
  | IoError
  | JsonError
  | ConfigDirError (msg : String)
  | PdfError (msg : String)
deriving DecidableEq, Repr

/-- The serde_json codec for `ProgressTracker`, as an external collaborator:
`encode` is `serde_json::to_string_pretty`, `decode` is
`serde_json::from_str` (`none` models a corrupt document). `decode_encode`
is serde's round-trip contract for this `Serialize`/`Deserialize` pair.
The content type `α` is abstract (the Rust code uses `String`). -/
structure JsonCodec (α : Type) where
  encode : ProgressTracker → α
  decode : α → Option ProgressTracker
  decode_encode : ∀ t, decode (encode t) = some t

namespace ProgressTracker

/-- `ProgressTracker::load` (src/pdf_utils.rs lines 31-39), as a function of
the observed file state: resolve the path (`?` on failure), then
`if progress_file.exists() { serde_json::from_str(read_to_string(..)?) }
else { Ok(Self::new()) }`. -/
def load {α : Type} (codec : JsonCodec α) :
    FileState α → Except NotedError ProgressTracker
  | .pathError => .error (.ConfigDirError "Could not find config directory")
  | .absent => .ok ProgressTracker.new
  | .unreadable => .error .IoError
  | .present a =>
    match codec.decode a with
    | some t => .ok t
    | none => .error .JsonError

/-- `ProgressTracker::save` (src/pdf_utils.rs lines 41-46): resolve the path
(`?` on failure), serialize, `fs::write` (`?` on failure). On success the
backing file holds exactly the encoding of the store. `pathOk` and
`writeOk` model the two fallible external steps. -/
def save {α : Type} (codec : JsonCodec α) (t : ProgressTracker)
    (pathOk writeOk : Bool) : Except NotedError (FileState α) :=
  if !pathOk then .error (.ConfigDirError "Could not find config directory")
  else if !writeOk then .error .IoError
  else .ok (.present (codec.encode t))

end ProgressTracker

/-- Identity codec: a concrete instance of the serde collaborator contract,
storing the decoded value itself as the file content. Used to instantiate
witnesses. -/
def idCodec : JsonCodec ProgressTracker where
  encode := id
  decode := some
  decode_encode := fun _ => rfl

/-! ## IncrementalAssembler (spec §4.4)

The assembler is part of this repository's pipeline but its code is not
under `src/`; it is modelled from the specification. -/

/-- Modelled from the spec: the fixed page-break delimiter of the
IncrementalAssembler, a horizontal rule surrounded by blank lines, as fixed
by the concrete scenario in spec §8
(`"Page A\n\n---\n\nPage B"`). -/
def pageBreakDelimiter : String := "\n\n---\n\n"

/-- Modelled from the spec: `append_and_flush(existing_text, new_text)`
(spec §4.4). The delimiter is inserted only between two non-empty segments;
if either side is empty the other is kept as-is. The returned string is the
full document text, which is also what gets flushed to the output file
(the flush is a full rewrite of the file with this text). -/
def append_and_flush (existing_text new_text : String) : String :=
  if existing_text.isEmpty then new_text
  else if new_text.isEmpty then existing_text
  else existing_text ++ pageBreakDelimiter ++ new_text

/-! ## PageRangeResolver (spec §4.1)

The resolver is part of this repository's pipeline but its code is not
under `src/`; it is modelled from the specification. Strings are processed
as character lists with structural recursion. -/

/-- Split a character list on a separator character; mirrors Rust
`str::split(sep)` (an empty input yields one empty piece). -/
def splitOnChar (sep : Char) : List Char → List (List Char)
  | [] => [[]]
  | c :: rest =>
    let r := splitOnChar sep rest
    if c = sep then [] :: r
    else
      match r with
      | [] => [[c]]
      | piece :: pieces => (c :: piece) :: pieces

/-- Parse a character list as an unsigned decimal integer; mirrors Rust
`str::parse::<u32>` (fails on an empty string or any non-digit). -/
def parseDecimal (cs : List Char) : Option Nat :=
  if cs.isEmpty then none
  else if cs.all Char.isDigit then
    some (cs.foldl (fun a c => a * 10 + (c.toNat - 48)) 0)
  else none

/-- A syntactically parsed page-selection token (spec §4.1/§6): a single
one-indexed page number, or an inclusive one-indexed `start-end` range. -/
inductive PageToken where
  | single (n : Nat)
  | range (a b : Nat)
deriving DecidableEq, Repr

/-- Modelled from the spec: parse one comma-separated token of the
selection expression: either a number or `start-end` (split on a dash);
any numeric part that does not parse is an error (spec §4.1, first
validation rule). -/
def parsePageToken (cs : List Char) : Except String PageToken :=
  match splitOnChar '-' cs with
  | [s] =>
    match parseDecimal s with
    | some n => .ok (.single n)
    | none => .error "invalid page number"
  | [s, t] =>
    match parseDecimal s, parseDecimal t with
    | some a, some b => .ok (.range a b)
    | _, _ => .error "invalid page range"
  | _ => .error "invalid page range"

/-- Modelled from the spec: validate one parsed token against
`total_pages`, in the spec's order (§4.1): `0` is rejected first
("page numbers must be 1 or greater"), then an inverted range, then any
page above `total_pages`. On success, the token's one-indexed pages in
ascending order. -/
def checkPageToken (total_pages : Nat) : PageToken → Except String (List Nat)
  | .single n =>
    if n = 0 then .error "page numbers must be 1 or greater"
    else if total_pages < n then .error "page number exceeds total pages"
    else .ok [n]
  | .range a b =>
    if a = 0 ∨ b = 0 then .error "page numbers must be 1 or greater"
    else if b < a then .error "range start must not exceed range end"
    else if total_pages < b then .error "page number exceeds total pages"
    else .ok (List.range' a (b + 1 - a))

/-- Resolve a list of tokens: parse and validate each, concatenating the
resolved one-indexed pages; the first violated rule aborts resolution. -/
def resolveTokens (total_pages : Nat) :
    List (List Char) → Except String (List Nat)
  | [] => .ok []
  | t :: ts =>
    match parsePageToken t with
    | .error e => .error e
    | .ok tok =>
      match checkPageToken total_pages tok with
      | .error e => .error e
      | .ok ps =>
        match resolveTokens total_pages ts with
        | .error e => .error e
        | .ok rest => .ok (ps ++ rest)

/-- Insert a value into a strictly ascending list, keeping it strictly
ascending (duplicates are dropped). -/
def insertAsc (n : Nat) : List Nat → List Nat
  | [] => [n]
  | m :: ms =>
    if n < m then n :: m :: ms
    else if n = m then m :: ms
    else m :: insertAsc n ms

/-- Deduplicate and sort into strictly ascending order. -/
def sortDedup (l : List Nat) : List Nat :=
  l.foldl (fun acc n => insertAsc n acc) []

/-- Modelled from the spec: `resolve(expression, total_pages)` (spec §4.1).
Split the expression on commas, parse and validate every token, then
return the deduplicated, strictly ascending, zero-indexed page selection. -/
def resolve (expression : String) (total_pages : Nat) :
    Except String (List Nat) :=
  match resolveTokens total_pages (splitOnChar ',' expression.toList) with
  | .error e => .error e
  | .ok pages => .ok ((sortDedup pages).map (· - 1))


/-! ## BatchScheduler (spec §4.3)

The scheduler is part of this repository's pipeline but its code is not
under `src/`; it is modelled from the specification. Image extraction and
the conversion backend are external collaborators (spec §6), passed in as
fallible functions; the checkpoint store's `save()` after each update is a
full-store durable write and is collapsed onto the in-memory store in this
model (the run's final tracker is exactly what was last persisted). -/

/-- External collaborators of one scheduler run (spec §6): per-page image
extraction and the batched conversion backend. Images are abstract values
of type `α`. -/
structure Collaborators (α : Type) where
  extract : Nat → Except String α
  convert : List α → Except String String

/-- Chunking worker: `acc` is the current chunk built in reverse, `r` is
its remaining capacity, `k + 1` is the chunk size. Structural recursion on
the page list. -/
def chunkAux {β : Type} (k : Nat) : List β → Nat → List β → List (List β)
  | [], _, acc => [acc.reverse]
  | x :: xs, Nat.succ r, acc => chunkAux k xs r (x :: acc)
  | x :: xs, 0, acc => acc.reverse :: chunkAux k xs k [x]

/-- Partition a list into consecutive chunks of at most `k + 1` elements
(spec §4.3 step 4: simple chunking of the effective set in order;
`pages_per_batch` is `k + 1`, so it is always positive). -/
def chunkPages {β : Type} (k : Nat) : List β → List (List β)
  | [] => []
  | x :: xs => chunkAux k xs k [x]

/-- Mutable state of a run: the checkpoint store and the accumulated output
text (which is also the output file's content, since every flush rewrites
the whole file — spec §4.4). -/
structure RunState where
  tracker : ProgressTracker
  output : String

/-- Process one batch (spec §4.3 steps 5a-5b): extract every page image in
order, then invoke the backend once on the whole ordered batch. -/
def processBatch {α : Type} (c : Collaborators α) (batch : List Nat) :
    Except String String := do
  let imgs ← batch.mapM c.extract
  c.convert imgs

/-- Spec §4.3 step 5d: the watermark written after a batch commits,
`(last page index in this batch) + 1` (batches are non-empty by
construction; `0` is a don't-care default). -/
def batchWatermark (batch : List Nat) : Nat :=
  (batch.getLast?.getD 0) + 1

/-- Spec §4.3 step 5: drive the batches in order; each success appends and
flushes the batch's text, then updates and persists the checkpoint; any
failure aborts immediately, leaving the state exactly as committed by the
strictly prior batches. Returns the final state and the error, if any. -/
def runBatches {α : Type} (doc : String) (total_pages : Nat)
    (c : Collaborators α) : List (List Nat) → RunState → RunState × Option String
  | [], st => (st, none)
  | batch :: rest, st =>
    match processBatch c batch with
    | .error e => (st, some e)
    | .ok text =>
      let st' : RunState :=
        { tracker := st.tracker.update_progress doc
            ⟨batchWatermark batch, total_pages⟩
          output := append_and_flush st.output text }
      runBatches doc total_pages c rest st'

/-- The state reached by committing a list of (batch, converted text)
pairs in order: each pair appends and flushes its text and advances the
checkpoint to the batch's watermark. This is the specification-side
description of "the concatenation of the strictly prior batches". -/
def commitBatches (doc : String) (total_pages : Nat) :
    List (List Nat × String) → RunState → RunState
  | [], st => st
  | (batch, text) :: rest, st =>
    commitBatches doc total_pages rest
      { tracker := st.tracker.update_progress doc
          ⟨batchWatermark batch, total_pages⟩
        output := append_and_flush st.output text }

/-- Modelled from the spec: the effective page set of a run (spec §4.3
step 2): an explicit selection is filtered to pages at or above the
watermark `w`; without one, the contiguous remainder `[w, total_pages)`. -/
def effectiveSet (w total_pages : Nat) : Option (List Nat) → List Nat
  | some sel => sel.filter (fun p => w ≤ p)
  | none => List.range' w (total_pages - w)

/-- Modelled from the spec: one full scheduler run (spec §4.3).
`requested` is the explicit page selection, if any (already resolved,
zero-indexed, strictly ascending); `ppbPred + 1` is `pages_per_batch`.
Steps: load the watermark (1), compute the effective set (2-3), chunk it
(4), drive the batches (5), and on full success mark the document
completed (6). -/
def schedulerRun {α : Type} (doc : String) (total_pages : Nat)
    (requested : Option (List Nat)) (ppbPred : Nat) (c : Collaborators α)
    (st : RunState) : RunState × Option String :=
  if (effectiveSet (st.tracker.watermark doc) total_pages
      requested).isEmpty then
    match requested with
    | some _ =>
      if (st.tracker.get_progress doc).isSome then
        ({ st with tracker := st.tracker.mark_completed doc }, none)
      else (st, none)
    | none => (st, none)
  else
    match runBatches doc total_pages c
        (chunkPages ppbPred
          (effectiveSet (st.tracker.watermark doc) total_pages requested))
        st with
    | (st', none) =>
      ({ st' with tracker := st'.tracker.mark_completed doc }, none)
    | (st', some e) => (st', some e)

/-! ## PDF page extraction (src/pdf_utils.rs lines 69-112)

The `pdf2image::PDF` handle is an external collaborator; it is modelled by
its rendering behaviour: `render (Pages::Single n)` for a one-indexed page
number `n` yields a list of page images (each image given by its PNG byte
encoding, since `image.save_with_format(.., Png)` followed by `fs::read`
yields exactly those bytes) or a rendering error. -/

/-- Mirror of `FileData` (src/file_utils.rs lines 5-8). -/
structure FileData where
  encoded_data : String
  mime_type : String
deriving DecidableEq, Repr

/-- The pdf2image collaborator: a loaded PDF, observed through
`render(Pages::Single n, options)` (one-indexed `n`) and `page_count()`.
Each rendered image is represented by its PNG byte string. -/
structure PDF where
  renderSingle : Nat → Except String (List (List Nat))
  page_count : Nat

/-- The base64 alphabet (RFC 4648, standard), as used by
`base64::engine::general_purpose::STANDARD`. -/
def base64Alphabet : String :=
  "ABCDEFGHIJKLMNOPQRSTUVWXYZabcdefghijklmnopqrstuvwxyz0123456789+/"

/-- Look up one 6-bit value in the base64 alphabet. -/
def base64Digit (n : Nat) : Char :=
  base64Alphabet.toList.getD n '='

/-- Standard base64 with padding, over a byte list; mirrors
`base64::engine::general_purpose::STANDARD.encode`. -/
def base64Encode : List Nat → String
  | [] => ""
  | [b0] =>
    String.mk [base64Digit (b0 / 4), base64Digit (b0 % 4 * 16), '=', '=']
  | [b0, b1] =>
    String.mk [base64Digit (b0 / 4), base64Digit (b0 % 4 * 16 + b1 / 16),
      base64Digit (b1 % 16 * 4), '=']
  | b0 :: b1 :: b2 :: rest =>
    String.mk [base64Digit (b0 / 4), base64Digit (b0 % 4 * 16 + b1 / 16),
      base64Digit (b1 % 16 * 4 + b2 / 64), base64Digit (b2 % 64)]
      ++ base64Encode rest

/-- `extract_page_as_image` (src/pdf_utils.rs lines 83-112): render the
single one-indexed page `page_num + 1`, take the first rendered image
(an I/O error if there is none), save it as PNG and read the bytes back
(the identity on the image's PNG bytes), base64-encode, and package with
media type `"image/png"`. Temp-file creation and the PNG save/read are
infallible in this model. -/
def extract_page_as_image (pdf : PDF) (page_num : Nat) :
    Except String FileData :=
  match pdf.renderSingle (page_num + 1) with
  | .error e => .error e
  | .ok images =>
    match images.head? with
    | none => .error "Failed to render the requested page"
    | some image =>
      .ok { encoded_data := base64Encode image, mime_type := "image/png" }

/-- Outcome of a Rust function that may panic: a normal return, an error
return, or a panic (e.g. `.unwrap()` on an `Err`). -/
inductive PanicOutcome (β : Type) where
  | ok (b : β)
  | err (e : NotedError)
  | panicked
deriving Repr

/-- `process_pdf` (src/pdf_utils.rs lines 69-81), as a function of the
results of its two fallible external calls. `fromFile` is
`PDF::from_file(pdf_path)`; the code calls `.unwrap()` on it (line 70) —
the `map_err` that would turn the failure into `NotedError::PdfError` is
commented out (line 71) — so a load failure panics. `optionsBuild` is
`RenderOptionsBuilder::default().build()`, whose failure is mapped to
`NotedError::PdfError`. -/
def process_pdf (fromFile : Except String PDF)
    (optionsBuild : Except String Unit) : PanicOutcome (PDF × Nat) :=
  match fromFile with
  | .error _ => .panicked
  | .ok pdf =>
    match optionsBuild with
    | .error e => .err (.PdfError e)
    | .ok _ => .ok (pdf, pdf.page_count)

/-! ## Update sequences and witness instances -/

/-- Apply a sequence of `update_progress` calls in order. -/
def applyUpdates (t : ProgressTracker) :
    List (String × ProcessingProgress) → ProgressTracker
  | [] => t
  | (k, p) :: us => applyUpdates (t.update_progress k p) us

/-- The caller discipline of spec §4.2: along this sequence of updates, no
update aimed at document `id` moves `last_processed_page` below the
watermark stored at the moment it is applied. -/
def nonDecreasingFor (id : String) :
    ProgressTracker → List (String × ProcessingProgress) → Bool
  | _, [] => true
  | t, (k, p) :: us =>
    (if k = id then decide (t.watermark id ≤ p.last_processed_page)
     else true) &&
      nonDecreasingFor id (t.update_progress k p) us

/-- A second concrete instance of the serde collaborator contract, whose
content type has a value (`none`) on which decoding fails — a concrete
"corrupt document". Used to instantiate witnesses. -/
def optionCodec : JsonCodec (Option ProgressTracker) where
  encode := some
  decode := id
  decode_encode := fun _ => rfl

/-- Concrete collaborators for witnesses and counterexamples: extraction
renders page `p` as the string `p`, and the backend fails exactly on the
batch consisting of page `3`. -/
def failOn3 : Collaborators String where
  extract := fun p => .ok (toString p)
  convert := fun imgs =>
    if imgs = ["3"] then .error "backend failure" else .ok "T"

/-- A concrete PDF collaborator for witnesses: only the one-indexed page 4
renders (to a single image with bytes `[0, 1, 2]`); it reports 9 pages. -/
def pdf4 : PDF where
  renderSingle := fun n =>
    if n = 4 then .ok [[0, 1, 2]] else .error "rendering failed"
  page_count := 9

/-- A concrete tracker with two documents, for frame-effect witnesses. -/
def twoDocTracker : ProgressTracker :=
  (ProgressTracker.new.update_progress "a.pdf" ⟨2, 9⟩).update_progress
    "b.pdf" ⟨4, 11⟩

/-! ## Theorems -/

/-- C6: `append_and_flush` inserts the fixed page-break delimiter between
`existing_text` and `new_text` iff both are non-empty; if either side is
empty no delimiter is inserted; and starting from empty output, appending
"Page A" then "Page B" yields exactly
`"Page A\n\n---\n\nPage B"`. -/
theorem assembler_delimiter_iff_both_nonempty (e n : String) :
    (e ≠ "" → n ≠ "" →
      append_and_flush e n = e ++ pageBreakDelimiter ++ n) ∧
    (e = "" → append_and_flush e n = n) ∧
    (n = "" → append_and_flush e n = e) ∧
    append_and_flush (append_and_flush "" "Page A") "Page B" =
      "Page A\n\n---\n\nPage B" := by
  refine ⟨?_, ?_, ?_, by rfl⟩
  · intro he hn
    rw [append_and_flush, if_neg (by simpa [String.isEmpty_iff] using he),
      if_neg (by simpa [String.isEmpty_iff] using hn)]
  · intro he
    subst he
    rfl
  · intro hn
    subst hn
    by_cases he : e = ""
    · subst he; rfl
    · rw [append_and_flush, if_neg (by simpa [String.isEmpty_iff] using he),
        if_pos (by rfl)]

/-- Witness for C6 at concrete non-empty inputs. -/
theorem assembler_delimiter_iff_both_nonempty_witness :
    append_and_flush "Page A" "Page B" =
      "Page A" ++ pageBreakDelimiter ++ "Page B" :=
  (assembler_delimiter_iff_both_nonempty "Page A" "Page B").1
    (by decide) (by decide)

/-- C8: `mark_completed(document_id)` removes the progress record for
exactly that id — afterwards `get_progress` returns `none` for it — and
leaves the record of every other document id unchanged. -/
theorem mark_completed_removes_only_target (t : ProgressTracker)
    (id : String) :
    (t.mark_completed id).get_progress id = none ∧
    ∀ id', id' ≠ id →
      (t.mark_completed id).get_progress id' = t.get_progress id' := by
  constructor
  · simp [ProgressTracker.mark_completed, ProgressTracker.get_progress]
  · intro id' h
    simp [ProgressTracker.mark_completed, ProgressTracker.get_progress, h]

/-- Witness for C8 on a concrete two-document store. -/
theorem mark_completed_removes_only_target_witness :
    (twoDocTracker.mark_completed "a.pdf").get_progress "a.pdf" = none ∧
    (twoDocTracker.mark_completed "a.pdf").get_progress "b.pdf" =
      twoDocTracker.get_progress "b.pdf" :=
  ⟨(mark_completed_removes_only_target twoDocTracker "a.pdf").1,
   (mark_completed_removes_only_target twoDocTracker "a.pdf").2 "b.pdf"
     (by decide)⟩

/-- C9: whenever `PDF::from_file` fails (the input path is not a loadable
PDF), `process_pdf` panics via `.unwrap()` instead of returning a
`NotedError` value: the outcome is `panicked`, never an error return, so
the (commented-out) error branch that would surface the failure to the
caller is unreachable. -/
theorem process_pdf_panics_on_unloadable (msg : String)
    (optionsBuild : Except String Unit) :
    process_pdf (.error msg) optionsBuild = .panicked ∧
    ∀ e, process_pdf (.error msg) optionsBuild ≠ .err e := by
  refine ⟨rfl, ?_⟩
  intro e h
  exact PanicOutcome.noConfusion h

/-- C1 counterexample: a backing progress file that exists but cannot be
read makes `load` return a hard `IoError` — not the empty store the claim
promises for an "unreadable" file. -/
theorem load_unreadable_is_hard_failure :
    ProgressTracker.load idCodec .unreadable = .error .IoError ∧
    ProgressTracker.load idCodec .unreadable ≠ .ok ProgressTracker.new :=
  ⟨rfl, fun h => Except.noConfusion h⟩

/-- C1 (amended): a missing backing file yields the empty store; corrupt
JSON yields a decode error rather than an empty store; but a file that
exists and cannot be read — or a failing path resolution — is a hard
error at load time, not an empty store. -/
theorem load_missing_empty_corrupt_decode_error {α : Type}
    (codec : JsonCodec α) (a : α) :
    ProgressTracker.load codec .absent = .ok ProgressTracker.new ∧
    (codec.decode a = none →
      ProgressTracker.load codec (.present a) = .error .JsonError) ∧
    ProgressTracker.load codec .unreadable = .error .IoError ∧
    ProgressTracker.load codec .pathError =
      .error (.ConfigDirError "Could not find config directory") := by
  refine ⟨rfl, ?_, rfl, rfl⟩
  intro h
  simp [ProgressTracker.load, h]

/-- Witness for C1 (amended) at a concrete corrupt document. -/
theorem load_missing_empty_corrupt_decode_error_witness :
    optionCodec.decode none = none ∧
    ProgressTracker.load optionCodec (.present none) = .error .JsonError :=
  ⟨rfl, (load_missing_empty_corrupt_decode_error optionCodec none).2.1 rfl⟩

/-- C10: a successful `save` followed by `load` is a round-trip: the
loaded store has, for every document id, exactly the record of the saved
store (by serde's round-trip contract and because `save` writes the full
encoded store to the file `load` reads). -/
theorem save_load_roundtrip {α : Type} (codec : JsonCodec α)
    (t : ProgressTracker) (pathOk writeOk : Bool) (fs : FileState α)
    (h : ProgressTracker.save codec t pathOk writeOk = .ok fs) :
    ∃ t', ProgressTracker.load codec fs = .ok t' ∧
      ∀ id, t'.get_progress id = t.get_progress id := by
  rw [ProgressTracker.save] at h
  split_ifs at h
  injection h with h
  subst h
  refine ⟨t, ?_, fun _ => rfl⟩
  simp [ProgressTracker.load, codec.decode_encode]

/-- Witness for C10 on a concrete two-document store. -/
theorem save_load_roundtrip_witness :
    ProgressTracker.save idCodec twoDocTracker true true =
      .ok (.present twoDocTracker) ∧
    ∃ t', ProgressTracker.load idCodec (.present twoDocTracker) = .ok t' ∧
      ∀ id, t'.get_progress id = twoDocTracker.get_progress id :=
  ⟨rfl, save_load_roundtrip idCodec twoDocTracker true true
    (.present twoDocTracker) rfl⟩

/-- C2 counterexample: `update_progress` replaces the record
unconditionally, so a sequence of updates can move the stored
`last_processed_page` watermark backward (from 5 to 3 here). -/
theorem update_progress_can_decrease_watermark :
    (ProgressTracker.new.update_progress "doc.pdf" ⟨5, 10⟩).watermark
      "doc.pdf" = 5 ∧
    ((ProgressTracker.new.update_progress "doc.pdf" ⟨5, 10⟩).update_progress
      "doc.pdf" ⟨3, 10⟩).watermark "doc.pdf" = 3 ∧
    (3 : Nat) < 5 := by decide

/-- C2 (amended): `update(document_id, progress)` replaces the record, so
`get` afterwards returns the new progress; the store itself does not
enforce monotonicity — the watermark never decreases only across update
sequences obeying the caller discipline that no update moves
`last_processed_page` below the currently stored watermark. -/
theorem update_replaces_and_caller_monotone (t : ProgressTracker)
    (id : String) (p : ProcessingProgress)
    (us : List (String × ProcessingProgress)) :
    (t.update_progress id p).get_progress id = some p ∧
    (nonDecreasingFor id t us = true →
      t.watermark id ≤ (applyUpdates t us).watermark id) := by
  constructor
  · simp [ProgressTracker.update_progress, ProgressTracker.get_progress]
  · induction us generalizing t with
    | nil => intro _; exact le_refl _
    | cons u us ih =>
      obtain ⟨k, q⟩ := u
      intro h
      simp only [nonDecreasingFor, Bool.and_eq_true] at h
      obtain ⟨h1, h2⟩ := h
      have step : t.watermark id ≤ (t.update_progress k q).watermark id := by
        by_cases hk : k = id
        · subst hk
          rw [if_pos rfl] at h1
          have hle := of_decide_eq_true h1
          simpa [ProgressTracker.update_progress, ProgressTracker.watermark,
            ProgressTracker.get_progress] using hle
        · have hik : id ≠ k := fun hh => hk hh.symm
          simp [ProgressTracker.update_progress, ProgressTracker.watermark,
            ProgressTracker.get_progress, hik]
      calc t.watermark id ≤ (t.update_progress k q).watermark id := step
        _ ≤ (applyUpdates (t.update_progress k q) us).watermark id := ih _ h2
        _ = (applyUpdates t ((k, q) :: us)).watermark id := by
            simp [applyUpdates]

/-- Witness for C2 (amended) on a concrete non-decreasing sequence. -/
theorem update_replaces_and_caller_monotone_witness :
    nonDecreasingFor "d" ProgressTracker.new
      [("d", ⟨2, 9⟩), ("d", ⟨5, 9⟩)] = true ∧
    (ProgressTracker.new.update_progress "d" ⟨7, 9⟩).get_progress "d" =
      some ⟨7, 9⟩ ∧
    ProgressTracker.new.watermark "d" ≤
      (applyUpdates ProgressTracker.new
        [("d", ⟨2, 9⟩), ("d", ⟨5, 9⟩)]).watermark "d" :=
  ⟨by decide,
   (update_replaces_and_caller_monotone ProgressTracker.new "d" ⟨7, 9⟩
     [("d", ⟨2, 9⟩), ("d", ⟨5, 9⟩)]).1,
   (update_replaces_and_caller_monotone ProgressTracker.new "d" ⟨7, 9⟩
     [("d", ⟨2, 9⟩), ("d", ⟨5, 9⟩)]).2 (by decide)⟩

/-- Membership in `insertAsc`: exactly the inserted value or an original
element. -/
theorem mem_insertAsc (n x : Nat) (l : List Nat) :
    x ∈ insertAsc n l ↔ x = n ∨ x ∈ l := by
  induction l with
  | nil => simp [insertAsc]
  | cons m ms ih =>
    by_cases h1 : n < m
    · simp [insertAsc, h1]
    · by_cases h2 : n = m
      · subst h2
        rw [insertAsc, if_neg h1, if_pos rfl]
        simp only [List.mem_cons]
        tauto
      · rw [insertAsc, if_neg h1, if_neg h2]
        simp only [List.mem_cons, ih]
        tauto

/-- `insertAsc` preserves strict sortedness. -/
theorem sorted_insertAsc (n : Nat) (l : List Nat)
    (hs : List.Sorted (· < ·) l) :
    List.Sorted (· < ·) (insertAsc n l) := by
  induction l with
  | nil => simp [insertAsc]
  | cons m ms ih =>
    rw [List.sorted_cons] at hs
    obtain ⟨hm, hms⟩ := hs
    by_cases h1 : n < m
    · rw [insertAsc, if_pos h1, List.sorted_cons]
      refine ⟨?_, List.sorted_cons.mpr ⟨hm, hms⟩⟩
      intro b hb
      rcases List.mem_cons.mp hb with rfl | hb
      · exact h1
      · exact lt_trans h1 (hm b hb)
    · by_cases h2 : n = m
      · subst h2
        rw [insertAsc, if_neg h1, if_pos rfl]
        exact List.sorted_cons.mpr ⟨hm, hms⟩
      · rw [insertAsc, if_neg h1, if_neg h2, List.sorted_cons]
        refine ⟨?_, ih hms⟩
        intro b hb
        rcases (mem_insertAsc n b ms).mp hb with rfl | hb
        · omega
        · exact hm b hb

/-- The `sortDedup` fold preserves strict sortedness of the accumulator. -/
theorem sortDedup_go_sorted (l : List Nat) :
    ∀ acc : List Nat, List.Sorted (· < ·) acc →
      List.Sorted (· < ·) (l.foldl (fun a n => insertAsc n a) acc) := by
  induction l with
  | nil => exact fun acc h => h
  | cons n ns ih => exact fun acc h => ih _ (sorted_insertAsc n acc h)

/-- Every element produced by the `sortDedup` fold comes from the
accumulator or the input. -/
theorem sortDedup_go_mem (l : List Nat) :
    ∀ (acc : List Nat) (x : Nat),
      x ∈ l.foldl (fun a n => insertAsc n a) acc → x ∈ acc ∨ x ∈ l := by
  induction l with
  | nil => exact fun acc x h => Or.inl h
  | cons n ns ih =>
    intro acc x h
    rcases ih _ x h with h' | h'
    · rcases (mem_insertAsc n x acc).mp h' with rfl | h''
      · exact Or.inr (List.mem_cons_self _ _)
      · exact Or.inl h''
    · exact Or.inr (List.mem_cons_of_mem _ h')

/-- `sortDedup` output is strictly ascending. -/
theorem sortDedup_sorted (l : List Nat) :
    List.Sorted (· < ·) (sortDedup l) :=
  sortDedup_go_sorted l [] (by simp)

/-- `sortDedup` output elements come from the input. -/
theorem mem_sortDedup (l : List Nat) (x : Nat) (h : x ∈ sortDedup l) :
    x ∈ l := by
  rcases sortDedup_go_mem l [] x h with h' | h'
  · exact absurd h' (List.not_mem_nil x)
  · exact h'

/-- A token accepted by `checkPageToken` resolves only to one-indexed
pages between `1` and `total_pages`. -/
theorem checkPageToken_bounds (T : Nat) (tok : PageToken) (ps : List Nat)
    (h : checkPageToken T tok = .ok ps) : ∀ p ∈ ps, 1 ≤ p ∧ p ≤ T := by
  cases tok with
  | single n =>
    rw [checkPageToken] at h
    split_ifs at h with h1 h2
    injection h with h
    subst h
    intro p hp
    rcases List.mem_cons.mp hp with rfl | hp
    · omega
    · exact absurd hp (List.not_mem_nil p)
  | range a b =>
    rw [checkPageToken] at h
    split_ifs at h with h1 h2 h3
    injection h with h
    subst h
    intro p hp
    rw [List.mem_range'_1] at hp
    push_neg at h1
    omega

/-- All pages resolved by `resolveTokens` are between `1` and
`total_pages`. -/
theorem resolveTokens_bounds (T : Nat) (ts : List (List Char))
    (l : List Nat) (h : resolveTokens T ts = .ok l) :
    ∀ p ∈ l, 1 ≤ p ∧ p ≤ T := by
  induction ts generalizing l with
  | nil =>
    rw [resolveTokens] at h
    injection h with h
    subst h
    intro p hp
    exact absurd hp (List.not_mem_nil p)
  | cons t ts ih =>
    rw [resolveTokens] at h
    cases htok : parsePageToken t with
    | error e =>
      simp only [htok] at h
      exact Except.noConfusion h
    | ok tok =>
      simp only [htok] at h
      cases hps : checkPageToken T tok with
      | error e =>
        simp only [hps] at h
        exact Except.noConfusion h
      | ok ps =>
        simp only [hps] at h
        cases hrest : resolveTokens T ts with
        | error e =>
          simp only [hrest] at h
          exact Except.noConfusion h
        | ok rest =>
          simp only [hrest] at h
          injection h with h
          subst h
          intro p hp
          rcases List.mem_append.mp hp with hp | hp
          · exact checkPageToken_bounds T tok ps hps p hp
          · exact ih rest hrest p hp

/-- Mapping the one-indexed-to-zero-indexed conversion over a strictly
ascending list of positive pages keeps it strictly ascending. -/
theorem sorted_map_sub_one (l : List Nat) (hs : List.Sorted (· < ·) l)
    (h1 : ∀ x ∈ l, 1 ≤ x) :
    List.Sorted (· < ·) (l.map (· - 1)) := by
  induction l with
  | nil => simp
  | cons a l ih =>
    rw [List.sorted_cons] at hs
    obtain ⟨ha, hl⟩ := hs
    rw [List.map_cons, List.sorted_cons]
    refine ⟨?_, ih hl (fun x hx => h1 x (List.mem_cons_of_mem _ hx))⟩
    intro b hb
    rcases List.mem_map.mp hb with ⟨c, hc, rfl⟩
    have hac := ha c hc
    have ha1 := h1 a (List.mem_cons_self _ _)
    omega

/-- C3: for every valid page-selection expression (comma-separated
one-indexed page numbers and inclusive ranges) and total page count `T`,
`resolve` returns a strictly ascending, duplicate-free sequence of
zero-indexed page values, each strictly less than `T`. -/
theorem resolve_sorted_dedup_bounded (e : String) (T : Nat) (l : List Nat)
    (h : resolve e T = .ok l) :
    List.Sorted (· < ·) l ∧ l.Nodup ∧ ∀ x ∈ l, x < T := by
  rw [resolve] at h
  cases hpages : resolveTokens T (splitOnChar ',' e.toList) with
  | error err =>
    simp only [hpages] at h
    exact Except.noConfusion h
  | ok pages =>
    simp only [hpages] at h
    injection h with h
    subst h
    have hb := resolveTokens_bounds T _ pages hpages
    have hone : ∀ x ∈ sortDedup pages, 1 ≤ x :=
      fun x hx => (hb x (mem_sortDedup pages x hx)).1
    have hT : ∀ x ∈ sortDedup pages, x ≤ T :=
      fun x hx => (hb x (mem_sortDedup pages x hx)).2
    have hmap := sorted_map_sub_one _ (sortDedup_sorted pages) hone
    refine ⟨hmap, hmap.nodup, ?_⟩
    intro x hx
    rcases List.mem_map.mp hx with ⟨c, hc, rfl⟩
    have := hone c hc
    have := hT c hc
    omega

/-- Witness for C3 on the concrete scenario of spec §8:
`resolve("1,3,5-8", 10)` yields `[0, 2, 4, 5, 6, 7]`. -/
theorem resolve_sorted_dedup_bounded_witness :
    resolve "1,3,5-8" 10 = .ok [0, 2, 4, 5, 6, 7] ∧
    (List.Sorted (· < ·) ([0, 2, 4, 5, 6, 7] : List Nat) ∧
      ([0, 2, 4, 5, 6, 7] : List Nat).Nodup ∧
      ∀ x ∈ ([0, 2, 4, 5, 6, 7] : List Nat), x < 10) :=
  ⟨by decide,
   resolve_sorted_dedup_bounded "1,3,5-8" 10 [0, 2, 4, 5, 6, 7] (by decide)⟩

/-- C4: for every total page count `T`, `resolve("0", T)` fails with the
zero-page error; every inverted range token `b-a` with `b > a` is
rejected by the resolver's token validation (shown generally at the
parsed-token level, and at the string level on the concrete expression
`"5-3"`); no selection is returned in either case. -/
theorem resolve_rejects_zero_and_inverted (T a b : Nat) (h : a < b) :
    resolve "0" T = .error "page numbers must be 1 or greater" ∧
    (checkPageToken T (.range b a)).isOk = false ∧
    resolve "5-3" T = .error "range start must not exceed range end" := by
  refine ⟨rfl, ?_, rfl⟩
  rw [checkPageToken]
  by_cases hz : b = 0 ∨ a = 0
  · rw [if_pos hz]
    rfl
  · rw [if_neg hz, if_pos h]
    rfl

/-- Witness for C4 at `T = 7`, inverted range `5-2`. -/
theorem resolve_rejects_zero_and_inverted_witness :
    (2 : Nat) < 5 ∧
    (resolve "0" 7 = .error "page numbers must be 1 or greater" ∧
      (checkPageToken 7 (.range 5 2)).isOk = false ∧
      resolve "5-3" 7 = .error "range start must not exceed range end") :=
  ⟨by decide, resolve_rejects_zero_and_inverted 7 2 5 (by decide)⟩

/-- The checkpoint record after committing a non-empty list of batches is
the last committed batch's watermark. -/
theorem commitBatches_getLast (doc : String) (total : Nat)
    (pairs : List (List Nat × String)) (x : List Nat × String)
    (st : RunState) (hx : pairs.getLast? = some x) :
    (commitBatches doc total pairs st).tracker.get_progress doc =
      some ⟨batchWatermark x.1, total⟩ := by
  induction pairs generalizing st with
  | nil => exact Option.noConfusion hx
  | cons pr pairs ih =>
    obtain ⟨b, text⟩ := pr
    cases pairs with
    | nil =>
      rw [List.getLast?_singleton] at hx
      injection hx with hx
      subst hx
      simp only [commitBatches]
      simp [ProgressTracker.update_progress, ProgressTracker.get_progress]
    | cons pr2 rest =>
      rw [List.getLast?_cons_cons] at hx
      rw [commitBatches]
      exact ih _ hx

/-- Spec §4.3 failure handling at the batch loop: if every batch in
`pairs` converts successfully and the next batch `bk` fails, the loop
stops with exactly the state committed by `pairs` — the failed batch
neither appends output nor advances the checkpoint. -/
theorem runBatches_abort_on_failure {α : Type} (doc : String)
    (total : Nat) (c : Collaborators α) (pairs : List (List Nat × String))
    (bk : List Nat) (rest : List (List Nat)) (st : RunState) (e : String)
    (hok : ∀ pr ∈ pairs, processBatch c pr.1 = .ok pr.2)
    (hfail : processBatch c bk = .error e) :
    runBatches doc total c (pairs.map Prod.fst ++ bk :: rest) st =
      (commitBatches doc total pairs st, some e) := by
  induction pairs generalizing st with
  | nil =>
    rw [List.map_nil, List.nil_append, runBatches]
    simp only [hfail]
    rfl
  | cons pr pairs ih =>
    obtain ⟨b, text⟩ := pr
    have hb : processBatch c b = .ok text := hok _ (List.mem_cons_self _ _)
    rw [List.map_cons, List.cons_append, runBatches]
    simp only [hb, commitBatches]
    exact ih _ (fun q hq => hok q (List.mem_cons_of_mem _ hq))

/-- C5 (amended): if the backend (or extraction) fails on batch `k` of a
scheduler run, the run aborts with exactly the state committed by batches
`1..k-1`: the output file equals their committed concatenation and the
checkpoint record equals the last committed batch's watermark — `(last
page index of batch k-1) + 1` — or is untouched when `k = 1`. (The
claim's "watermark equals the first page index of batch k" holds only
when the effective set is contiguous; see the counterexample.) -/
theorem scheduler_failure_preserves_prior_batches {α : Type}
    (doc : String) (total ppbPred : Nat) (requested : Option (List Nat))
    (c : Collaborators α) (st : RunState)
    (pairs : List (List Nat × String)) (bk : List Nat)
    (rest : List (List Nat)) (e : String)
    (hchunk : chunkPages ppbPred
        (effectiveSet (st.tracker.watermark doc) total requested) =
      pairs.map Prod.fst ++ bk :: rest)
    (hok : ∀ pr ∈ pairs, processBatch c pr.1 = .ok pr.2)
    (hfail : processBatch c bk = .error e) :
    schedulerRun doc total requested ppbPred c st =
      (commitBatches doc total pairs st, some e) ∧
    ∀ x, pairs.getLast? = some x →
      (commitBatches doc total pairs st).tracker.get_progress doc =
        some ⟨batchWatermark x.1, total⟩ := by
  have hne :
      (effectiveSet (st.tracker.watermark doc) total requested).isEmpty =
        false := by
    cases heff : effectiveSet (st.tracker.watermark doc) total requested with
    | nil =>
      rw [heff] at hchunk
      rw [chunkPages] at hchunk
      exact absurd hchunk.symm (List.append_ne_nil_of_right_ne_nil _
        (List.cons_ne_nil bk rest))
    | cons x xs => rfl
  refine ⟨?_, fun x hx => commitBatches_getLast doc total pairs x st hx⟩
  unfold schedulerRun
  rw [if_neg (by rw [hne]; exact Bool.false_ne_true)]
  rw [hchunk, runBatches_abort_on_failure doc total c pairs bk rest st e
    hok hfail]

/-- Witness for C5 (amended): explicit selection `[1, 3]`, batch size 1,
backend fails on the second batch `[3]`; the run ends with exactly the
state committed by the first batch. -/
theorem scheduler_failure_preserves_prior_batches_witness :
    processBatch failOn3 [3] = .error "backend failure" ∧
    schedulerRun "d" 10 (some [1, 3]) 0 failOn3 ⟨ProgressTracker.new, ""⟩ =
      (commitBatches "d" 10 [([1], "T")] ⟨ProgressTracker.new, ""⟩,
        some "backend failure") :=
  ⟨by decide,
   (scheduler_failure_preserves_prior_batches "d" 10 0 (some [1, 3])
     failOn3 ⟨ProgressTracker.new, ""⟩ [([1], "T")] [3] [] "backend failure"
     (by decide) (by decide) (by decide)).1⟩

/-- C5 counterexample: in the same failed run the checkpoint watermark is
`2` (last page of committed batch `[1]`, plus one), while the first page
index of the failing batch `[3]` is `3` — the claim's "checkpoint
watermark equals the first page index of batch k" fails for a sparse
selection. -/
theorem scheduler_watermark_not_first_page_of_failed_batch :
    (schedulerRun "d" 10 (some [1, 3]) 0 failOn3
        ⟨ProgressTracker.new, ""⟩).1.tracker.get_progress "d" =
      some ⟨2, 10⟩ ∧
    chunkPages 0 (effectiveSet 0 10 (some [1, 3])) = [[1], [3]] ∧
    [3].headD 0 = 3 ∧ (2 : Nat) ≠ 3 := by decide

/-- C7: `extract_page_as_image` converts the zero-based page index at the
boundary: it consults the PDF's rendering of exactly the single
one-indexed page `p + 1` (any PDF agreeing on that page gives the same
result), and on success returns the encoded image bytes paired with media
type `"image/png"`. -/
theorem extract_page_one_indexed_png (pdf : PDF) (p : Nat)
    (imgs : List (List Nat)) (img : List Nat)
    (hrender : pdf.renderSingle (p + 1) = .ok imgs)
    (hhead : imgs.head? = some img) :
    extract_page_as_image pdf p =
      .ok ⟨base64Encode img, "image/png"⟩ ∧
    ∀ pdf' : PDF, pdf'.renderSingle (p + 1) = pdf.renderSingle (p + 1) →
      extract_page_as_image pdf' p = extract_page_as_image pdf p := by
  constructor
  · rw [extract_page_as_image]
    simp only [hrender, hhead]
  · intro pdf' hagree
    rw [extract_page_as_image, extract_page_as_image, hagree]

/-- Witness for C7: a concrete PDF whose one-indexed page 4 renders;
extracting zero-based page 3 returns its PNG bytes base64-encoded with
media type `"image/png"`. -/
theorem extract_page_one_indexed_png_witness :
    pdf4.renderSingle 4 = .ok [[0, 1, 2]] ∧
    extract_page_as_image pdf4 3 =
      .ok ⟨base64Encode [0, 1, 2], "image/png"⟩ :=
  ⟨rfl,
   (extract_page_one_indexed_png pdf4 3 [[0, 1, 2]] [0, 1, 2] rfl rfl).1⟩
